import Mathlib

/-!
Verification of the c3d ray-tracing core (src/include/c3d.h) against its
natural-language specification.

Doubles are modelled as extended reals (`EReal`) where the code relies on the
IEEE infinities (interval bounds, box slab tests) and as reals (`ℝ`) elsewhere
(vector components, ray parameters).  Mutating members are modelled as pure
functions returning the new value of `*this`.  The abstract base classes
`Material` and `Hittable` (virtual dispatch) are modelled as records of
functions.
-/

set_option maxHeartbeats 1000000

noncomputable section

namespace c3d

open Real Classical

/-- The infinity of double (`INF` in the source), modelled as the top of `EReal`. -/
def INF : EReal := ⊤

/-- Pi in double, generated by the inverse cosine value of -1 (`PI=std::acos(-1)`). -/
def PI : ℝ := Real.arccos (-1)

/-- `Interval` [min,max] of doubles (source lines 27-73). -/
structure Interval where
  min : EReal
  max : EReal

namespace Interval

/-- `contain`: `min<=a&&a<=max` (the argument is a double, hence finite). -/
def contain (I : Interval) (a : ℝ) : Prop := I.min ≤ (a : EReal) ∧ (a : EReal) ≤ I.max

/-- `isEmpty`: `min>max`. -/
def isEmpty (I : Interval) : Prop := I.min > I.max

/-- `intersect`: `min=std::max(min,a.min),max=std::min(max,a.max)`, modelled as the
    value of `*this` after the call. -/
def intersect (I a : Interval) : Interval := ⟨Max.max I.min a.min, Min.min I.max a.max⟩

/-- `unite`: `min=std::min(min,a.min),max=std::max(max,a.max)`, modelled as the
    value of `*this` after the call. -/
def unite (I a : Interval) : Interval := ⟨Min.min I.min a.min, Max.max I.max a.max⟩

/-- `length`: `max-min`. -/
def length (I : Interval) : EReal := I.max - I.min

/-- The empty interval constant `Interval::empty{INF,-INF}`. -/
def empty : Interval := ⟨⊤, ⊥⟩

end Interval

/-- 3-dimension vector [x,y,z] (source lines 79-108). -/
structure Vector where
  x : ℝ
  y : ℝ
  z : ℝ

/-- RGB color alias (`using Color=Vector`). -/
abbrev Color := Vector

namespace Vector

theorem ext_iff {a b : Vector} : a = b ↔ a.x = b.x ∧ a.y = b.y ∧ a.z = b.z := by
  cases a; cases b; simp [mk.injEq]

end Vector

/-- `operator+(Vector,Vector)`. -/
def vadd (a b : Vector) : Vector := ⟨a.x + b.x, a.y + b.y, a.z + b.z⟩

/-- `operator-(Vector,Vector)`. -/
def vsub (a b : Vector) : Vector := ⟨a.x - b.x, a.y - b.y, a.z - b.z⟩

/-- `operator*(Vector,double)`, scalar multiplication. -/
def smul (v : Vector) (a : ℝ) : Vector := ⟨v.x * a, v.y * a, v.z * a⟩

/-- `operator*(Vector,Vector)`, dot product. -/
def dot (a b : Vector) : ℝ := a.x * b.x + a.y * b.y + a.z * b.z

/-- `operator&(Vector,Vector)`, cross product. -/
def cross (a b : Vector) : Vector :=
  ⟨a.y * b.z - a.z * b.y, a.z * b.x - a.x * b.z, a.x * b.y - a.y * b.x⟩

/-- `operator/(Vector,double)`. -/
def vdiv (v : Vector) (a : ℝ) : Vector := ⟨v.x / a, v.y / a, v.z / a⟩

/-- `operator-(Vector)`, negation. -/
def vneg (v : Vector) : Vector := ⟨-v.x, -v.y, -v.z⟩

instance : Add Vector := ⟨vadd⟩
instance : Sub Vector := ⟨vsub⟩
instance : Neg Vector := ⟨vneg⟩
instance : HMul Vector ℝ Vector := ⟨smul⟩
instance : HMul Vector Vector ℝ := ⟨dot⟩
instance : HDiv Vector ℝ Vector := ⟨vdiv⟩

@[simp] theorem add_def (a b : Vector) : a + b = vadd a b := rfl

@[simp] theorem sub_def (a b : Vector) : a - b = vsub a b := rfl

@[simp] theorem neg_def (a : Vector) : -a = vneg a := rfl

@[simp] theorem smul_def (v : Vector) (a : ℝ) : v * a = smul v a := rfl

@[simp] theorem dot_def (a b : Vector) : a * b = dot a b := rfl

@[simp] theorem vdiv_def (v : Vector) (a : ℝ) : v / a = vdiv v a := rfl

/-- `normSq(v)=v.x*v.x+v.y*v.y+v.z*v.z`. -/
def normSq (v : Vector) : ℝ := v.x * v.x + v.y * v.y + v.z * v.z

/-- `norm(v)=sqrt(normSq(v))`. -/
def norm (v : Vector) : ℝ := Real.sqrt (normSq v)

/-- `unit(v)=v/norm(v)`. -/
def unit (v : Vector) : Vector := vdiv v (norm v)

/-- Free function `rotate(v,axis,a)`:
    `v*c+axis*(1-c)*(v*axis)+(v&axis)*std::sin(a)` with `c=std::cos(a)`. -/
def rotate (v axis : Vector) (a : ℝ) : Vector :=
  vadd (vadd (smul v (Real.cos a)) (smul (smul axis (1 - Real.cos a)) (dot v axis)))
    (smul (cross v axis) (Real.sin a))

/-- Free function `rotate(v,origin,axis,a)`: `rotate(v-origin,axis,a)+origin`. -/
def rotateAbout (v origin axis : Vector) (a : ℝ) : Vector :=
  vadd (rotate (vsub v origin) axis a) origin

/-- Member `Vector::rotate(axis,a)`: mutates `*this` to
    `*this*c+axis*(1-c)*(*this*axis)+(*this&axis)*std::sin(a)`; modelled as the
    returned new value. -/
def Vector.rotateMem (v : Vector) (axis : Vector) (a : ℝ) : Vector :=
  vadd (vadd (smul v (Real.cos a)) (smul (smul axis (1 - Real.cos a)) (dot v axis)))
    (smul (cross v axis) (Real.sin a))

/-- Member `Vector::rotate(origin,axis,a)`: `*this-=origin,*this=rotate(axis,a)+origin`;
    modelled as the returned new value. -/
def Vector.rotateMemAbout (v : Vector) (origin axis : Vector) (a : ℝ) : Vector :=
  vadd ((vsub v origin).rotateMem axis a) origin

/-- Member `Vector::unitize()`: `*this/=norm(*this)`; modelled as the returned value. -/
def Vector.unitize (v : Vector) : Vector := vdiv v (norm v)

/-- `RandUnitVec3(generator)` with the two successive uniform draws of
    `std::uniform_real_distribution<>(-1,1)` passed explicitly as `b` and `u`:
    `b=d(generator), r=sqrt(b*(b-1))*2, l=2*PI*d(generator)`,
    returning `{cos(l)*r, sin(l)*r, 1-2*b}`. -/
def RandUnitVec3 (b u : ℝ) : Vector :=
  ⟨Real.cos (2 * PI * u) * (Real.sqrt (b * (b - 1)) * 2),
   Real.sin (2 * PI * u) * (Real.sqrt (b * (b - 1)) * 2),
   1 - 2 * b⟩

/-- `RandVec3OnUnitHemisphere(generator,n)` with the two uniform draws passed
    explicitly: computes `v` exactly as `RandUnitVec3` does and returns
    `v*n>0?v:-v`. -/
def RandVec3OnUnitHemisphere (b u : ℝ) (n : Vector) : Vector :=
  if dot (RandUnitVec3 b u) n > 0 then RandUnitVec3 b u else vneg (RandUnitVec3 b u)

/-- Abstract base class `Material` (virtual `possibility` and `generate`),
    modelled as a record of its two virtual functions. -/
structure Material where
  possibility : Vector → Vector → ℝ
  generate : Vector → Vector → Vector

/-- `class Mirror final:public Material`:
    `possibility(theoretic,real)` is `real==theoretic?1:0`;
    `generate(normal,theoretic)` returns `theoretic`. -/
def Mirror : Material :=
  ⟨fun theoretic real => if real = theoretic then 1 else 0, fun _ theoretic => theoretic⟩

/-- `struct Light{Color color;double brightness;}`. -/
structure Light where
  color : Color
  brightness : ℝ

/-- `struct HitRecord`: point, normal, light, dist, material.  The two
    `shared_ptr`s (which may be null) are modelled as `Option`s. -/
structure HitRecord where
  point : Vector
  normal : Vector
  light : Option Light
  dist : ℝ
  material : Option Material

/-- Axis-aligned box: three `Interval`s, one per axis (source lines 126-139). -/
structure Aabb where
  x : Interval
  y : Interval
  z : Interval

namespace Aabb

/-- `Aabb::hit(origin,ray,interval)`:
    `!(interval.intersect({(x.min-origin.x)/ray.x,(x.max-origin.x)/ray.x}).isEmpty()
      ||interval.intersect({(y.min-origin.y)/ray.y,(y.max-origin.y)/ray.y}).isEmpty()
      ||interval.intersect({(z.min-origin.z)/ray.z,(z.max-origin.z)/ray.z}).isEmpty())`
    where `interval` is a by-value copy mutated by the successive `intersect` calls. -/
def hit (box : Aabb) (origin ray : Vector) (interval : Interval) : Prop :=
  let i1 := interval.intersect
    ⟨(box.x.min - (origin.x : EReal)) / (ray.x : EReal),
     (box.x.max - (origin.x : EReal)) / (ray.x : EReal)⟩
  let i2 := i1.intersect
    ⟨(box.y.min - (origin.y : EReal)) / (ray.y : EReal),
     (box.y.max - (origin.y : EReal)) / (ray.y : EReal)⟩
  let i3 := i2.intersect
    ⟨(box.z.min - (origin.z : EReal)) / (ray.z : EReal),
     (box.z.max - (origin.z : EReal)) / (ray.z : EReal)⟩
  ¬(i1.isEmpty ∨ i2.isEmpty ∨ i3.isEmpty)

/-- Member `Aabb::unite(a)`: `x.unite(a.x),y.unite(a.y),z.unite(a.z)`, modelled as
    the value of `*this` after the call. -/
def unite (a b : Aabb) : Aabb := ⟨a.x.unite b.x, a.y.unite b.y, a.z.unite b.z⟩

/-- `Aabb::empty{Interval::empty,Interval::empty,Interval::empty}`. -/
def empty : Aabb := ⟨Interval.empty, Interval.empty, Interval.empty⟩

end Aabb

/-- Modelled from the spec: the constant `EPSILON` is referenced by `Sphere::hit`
    but defined nowhere in the source; the spec's design notes state "A value of
    1e-4 in scene units is reasonable". -/
def EPSILON : ℝ := 1 / 10000

/-- `class Sphere final:public Hittable` (source lines 199-221). -/
structure Sphere where
  center : Vector
  radius : ℝ
  light : Option Light
  material : Option Material

/-- `Sphere::hit(origin,ray,interval)` (source lines 205-219):
    `co=origin-center; b=ray*co; d=b*b-normSq(co)+radius*radius;`
    `if(d<0) return nullptr; sd=sqrt(d); t=-b-sd; if(t<EPSILON) t+=sd*2;`
    `if(t<EPSILON) return nullptr; point=origin+ray*t;`
    `return {point,(point-center).unitize(),light,t,material}`.
    Note: the `interval` argument is never read. -/
def Sphere.hit (s : Sphere) (origin ray : Vector) (interval : Interval) : Option HitRecord :=
  let co := vsub origin s.center
  let b := dot ray co
  let d := b * b - normSq co + s.radius * s.radius
  if d < 0 then none else
  let sd := Real.sqrt d
  let t0 := -b - sd
  let t := if t0 < EPSILON then t0 + sd * 2 else t0
  if t < EPSILON then none else
  let point := vadd origin (smul ray t)
  some ⟨point, (vsub point s.center).unitize, s.light, t, s.material⟩

/-- `Sphere::aabb()`: the box `(center-(r,r,r), center+(r,r,r))` written with
    explicit per-axis intervals. -/
def Sphere.aabb (s : Sphere) : Aabb :=
  ⟨⟨((s.center.x - s.radius : ℝ) : EReal), ((s.center.x + s.radius : ℝ) : EReal)⟩,
   ⟨((s.center.y - s.radius : ℝ) : EReal), ((s.center.y + s.radius : ℝ) : EReal)⟩,
   ⟨((s.center.z - s.radius : ℝ) : EReal), ((s.center.z + s.radius : ℝ) : EReal)⟩⟩

/-- The `hit` capability of the abstract base class `Hittable`: a primitive seen
    through virtual dispatch is just its hit function. -/
def HitFun := Vector → Vector → Interval → Option HitRecord

/-- Modelled from the spec: the shape of a finished `BvhTree`.  The source's
    constructor stores `left`/`right` children (a child is either another node or
    a primitive, seen through `shared_ptr<const Hittable>`; `right` is `nullptr`
    in the single-object case, modelled by `nil`) and a cached box `aabb_`; its
    build beyond two objects and its `hit` body are left `TODO`. -/
inductive Bvh where
  | nil
  | prim (h : HitFun)
  | node (left right : Bvh) (box : Aabb)

/-- Merge the two children's results, keeping the hit with the smaller `dist`
    (Modelled from the spec: "Query both children; keep the hit with the smaller
    t that lies within the interval ... or nothing if both children miss"). -/
def mergeHits : Option HitRecord → Option HitRecord → Option HitRecord
  | none, b => b
  | some a, none => some a
  | some a, some b => if a.dist ≤ b.dist then some a else some b

/-- Modelled from the spec: `BvhTree::hit` (its body is a bare `TODO` in the
    source): "If the node's cached box is not hit by the ray within the
    interval, return no hit.  Query both children; keep the hit with the smaller
    t ...  Return it (or nothing if both children miss)."  Querying a `nil`
    (null) child yields nothing; querying a primitive dispatches to it. -/
def Bvh.hit : Bvh → Vector → Vector → Interval → Option HitRecord
  | .nil, _, _, _ => none
  | .prim h, origin, ray, interval => h origin ray interval
  | .node l r box, origin, ray, interval =>
      if box.hit origin ray interval then
        mergeHits (Bvh.hit l origin ray interval) (Bvh.hit r origin ray interval)
      else none

/-- The primitives referenced by the leaves of a hierarchy, in left-to-right order. -/
def Bvh.prims : Bvh → List HitFun
  | .nil => []
  | .prim h => [h]
  | .node l r _ => Bvh.prims l ++ Bvh.prims r

/-- The cached boxes are conservative for the query `(origin, ray, interval)`:
    whenever a node's box test fails, no primitive below that node hits the ray
    in the interval.  This is the invariant the spec's build phase establishes
    (each node caches the union of its descendants' boxes, and hitting a
    primitive inside a box requires hitting the box). -/
def Bvh.Conservative : Bvh → Vector → Vector → Interval → Prop
  | .nil, _, _, _ => True
  | .prim _, _, _, _ => True
  | .node l r box, origin, ray, interval =>
      (¬box.hit origin ray interval →
        ∀ f ∈ Bvh.prims (.node l r box), f origin ray interval = none) ∧
      Bvh.Conservative l origin ray interval ∧ Bvh.Conservative r origin ray interval

/-! ### Helper lemmas -/

theorem ecoe_max (a b : ℝ) : ((Max.max a b : ℝ) : EReal) = Max.max (a : EReal) (b : EReal) :=
  EReal.coe_strictMono.monotone.map_max

theorem ecoe_min (a b : ℝ) : ((Min.min a b : ℝ) : EReal) = Min.min (a : EReal) (b : EReal) :=
  EReal.coe_strictMono.monotone.map_min

/-! ### Claims -/

/-- Claim C7: `Interval.intersect` and `Interval.unite` are commutative and
    associative as pure operations on the (min, max) pairs, `intersect(a, empty)`
    is `empty`, `unite(a, empty) = a`, `Aabb.unite(a, empty) = a`, and `empty` is
    the canonical `[+∞, −∞]` interval on every axis. -/
theorem interval_algebra :
    (∀ a b : Interval, a.intersect b = b.intersect a) ∧
    (∀ a b c : Interval, (a.intersect b).intersect c = a.intersect (b.intersect c)) ∧
    (∀ a b : Interval, a.unite b = b.unite a) ∧
    (∀ a b c : Interval, (a.unite b).unite c = a.unite (b.unite c)) ∧
    (∀ a : Interval, a.intersect Interval.empty = Interval.empty) ∧
    (∀ a : Interval, a.unite Interval.empty = a) ∧
    (∀ a : Aabb, a.unite Aabb.empty = a) ∧
    Interval.empty = ⟨⊤, ⊥⟩ ∧ Aabb.empty = ⟨⟨⊤, ⊥⟩, ⟨⊤, ⊥⟩, ⟨⊤, ⊥⟩⟩ := by
  refine ⟨fun a b => ?_, fun a b c => ?_, fun a b => ?_, fun a b c => ?_,
    fun a => ?_, fun a => ?_, fun a => ?_, rfl, rfl⟩
  · simp [Interval.intersect, max_comm, min_comm]
  · simp [Interval.intersect, max_assoc, min_assoc]
  · simp [Interval.unite, max_comm, min_comm]
  · simp [Interval.unite, max_assoc, min_assoc]
  · simp [Interval.intersect, Interval.empty, max_eq_right le_top, min_eq_right bot_le]
  · simp [Interval.unite, Interval.empty, min_eq_left le_top, max_eq_left bot_le]
  · simp [Aabb.unite, Aabb.empty, Interval.unite, Interval.empty,
      min_eq_left le_top, max_eq_left bot_le]

/-- Claim C8: for all vectors `n`, `t`, `tv` with `tv ≠ t`, the mirror material
    returns the theoretic direction unchanged and its possibility is the discrete
    indicator: `Mirror.generate n t = t`, `Mirror.possibility t t = 1` and
    `Mirror.possibility t tv = 0`. -/
theorem mirror_spec (n t tv : Vector) (h : tv ≠ t) :
    Mirror.generate n t = t ∧ Mirror.possibility t t = 1 ∧ Mirror.possibility t tv = 0 := by
  refine ⟨rfl, by simp [Mirror], by simp [Mirror, h]⟩

/-- Witness for `mirror_spec` at `n = 0`, `t = (1,2,3)`, `tv = (4,5,6)`. -/
theorem mirror_spec_witness :
    Mirror.generate ⟨0, 0, 0⟩ ⟨1, 2, 3⟩ = ⟨1, 2, 3⟩ ∧
    Mirror.possibility ⟨1, 2, 3⟩ ⟨1, 2, 3⟩ = 1 ∧
    Mirror.possibility ⟨1, 2, 3⟩ ⟨4, 5, 6⟩ = 0 :=
  mirror_spec ⟨0, 0, 0⟩ ⟨1, 2, 3⟩ ⟨4, 5, 6⟩ (by norm_num [Vector.mk.injEq])

/-- Claim C10: the mutating members `Vector::rotate(origin,axis,a)` and
    `Vector::rotate(axis,a)` leave `*this` equal to the corresponding pure free
    functions `rotate(v-origin,axis,a)+origin` and `rotate(v,axis,a)`. -/
theorem member_rotate_refines (v origin axis : Vector) (a : ℝ) :
    Vector.rotateMemAbout v origin axis a = rotateAbout v origin axis a ∧
    Vector.rotateMem v axis a = rotate v axis a :=
  ⟨rfl, rfl⟩

/-- `RandVec3OnUnitHemisphere` with its NaN error path made explicit.
    `std::sqrt` returns NaN when its argument is negative, which happens for
    every draw `b ∈ (0,1)` since the code passes `b*(b-1)`; the NaN then
    propagates to every component of `v`, to `v*n`, and (the comparison
    `NaN > 0` being false) to the returned `-v`.  A NaN result is modelled as
    `none`; on draws where the sqrt argument is nonnegative the code computes
    the real vector `RandVec3OnUnitHemisphere b u n`. -/
def RandVec3OnUnitHemisphereChecked (b u : ℝ) (n : Vector) : Option Vector :=
  if b * (b - 1) < 0 then none else some (RandVec3OnUnitHemisphere b u n)

/-- Claim C6 (refuted): at the reachable draw `b = 1/2` (any second draw `u`,
    any normal `n`) the code takes `std::sqrt` of the negative argument
    `b*(b-1) = -1/4`, so the returned vector is NaN componentwise and its dot
    product with `n` is NaN, which is not `≥ 0`: the NaN-aware model returns no
    real vector at all. -/
theorem hemisphere_nan_path (u : ℝ) (n : Vector) :
    RandVec3OnUnitHemisphereChecked (1 / 2) u n = none ∧
    ((1 : ℝ) / 2) * (1 / 2 - 1) < 0 := by
  norm_num [RandVec3OnUnitHemisphereChecked]

/-- Claim C2 (refuted): `RandUnitVec3` does not return unit vectors.  At the
    first draw `b = -1/2` (a value `uniform_real_distribution<>(-1,1)` can
    produce) the squared norm is `7`, whatever the second draw `u` is: the code
    computes `r = 2*sqrt(b*(b-1))`, not the spec's `2*sqrt(b*(1-b))`. -/
theorem randUnitVec3_not_unit (u : ℝ) :
    normSq (RandUnitVec3 (-(1 / 2)) u) = 7 ∧ normSq (RandUnitVec3 (-(1 / 2)) u) ≠ 1 := by
  have h7 : normSq (RandUnitVec3 (-(1 / 2)) u) = 7 := by
    have hs : Real.sqrt ((-(1 / 2) : ℝ) * (-(1 / 2) - 1)) ^ 2 = 3 / 4 := by
      rw [show ((-(1 / 2) : ℝ) * (-(1 / 2) - 1)) = 3 / 4 by norm_num]
      exact Real.sq_sqrt (by norm_num)
    have hcs := Real.sin_sq_add_cos_sq (2 * PI * u)
    simp only [RandUnitVec3, normSq]
    linear_combination (4 * Real.sqrt ((-(1 / 2) : ℝ) * (-(1 / 2) - 1)) ^ 2) * hcs + 4 * hs
  exact ⟨h7, by rw [h7]; norm_num⟩

/-- Claim C9: for every vector `v`, unit axis vector and angle `θ`, applying
    `rotate(v,axis,θ)` and then `rotate(·,axis,−θ)` returns `v` exactly over the
    reals. -/
theorem rotate_roundtrip (v axis : Vector) (θ : ℝ) (h : normSq axis = 1) :
    rotate (rotate v axis θ) axis (-θ) = v := by
  obtain ⟨vx, vy, vz⟩ := v
  obtain ⟨ax, ay, az⟩ := axis
  have hsc := Real.sin_sq_add_cos_sq θ
  simp only [normSq] at h
  simp only [rotate, vadd, smul, dot, cross, Real.cos_neg, Real.sin_neg, Vector.mk.injEq]
  refine ⟨?_, ?_, ?_⟩
  · linear_combination (vx - ax * (vx * ax + vy * ay + vz * az)) * hsc +
      (vx * Real.sin θ ^ 2 + ax * (vx * ax + vy * ay + vz * az) * (1 - Real.cos θ) ^ 2) * h
  · linear_combination (vy - ay * (vx * ax + vy * ay + vz * az)) * hsc +
      (vy * Real.sin θ ^ 2 + ay * (vx * ax + vy * ay + vz * az) * (1 - Real.cos θ) ^ 2) * h
  · linear_combination (vz - az * (vx * ax + vy * ay + vz * az)) * hsc +
      (vz * Real.sin θ ^ 2 + az * (vx * ax + vy * ay + vz * az) * (1 - Real.cos θ) ^ 2) * h

/-- Witness for `rotate_roundtrip` at `v = (1,2,3)`, `axis = (0,0,1)`, `θ = 1`. -/
theorem rotate_roundtrip_witness :
    rotate (rotate ⟨1, 2, 3⟩ ⟨0, 0, 1⟩ 1) ⟨0, 0, 1⟩ (-1) = ⟨1, 2, 3⟩ :=
  rotate_roundtrip ⟨1, 2, 3⟩ ⟨0, 0, 1⟩ 1 (by norm_num [normSq])

/-- Case analysis of `Sphere::hit`, giving the full record it returns in each
    branch of the root-selection logic. -/
theorem Sphere.hit_cases (s : Sphere) (origin ray : Vector) (I : Interval) (b d : ℝ)
    (hb : b = dot ray (vsub origin s.center))
    (hd : d = b * b - normSq (vsub origin s.center) + s.radius * s.radius) :
    (d < 0 → s.hit origin ray I = none) ∧
    (0 ≤ d →
      (EPSILON ≤ -b - Real.sqrt d →
        s.hit origin ray I = some ⟨vadd origin (smul ray (-b - Real.sqrt d)),
          (vsub (vadd origin (smul ray (-b - Real.sqrt d))) s.center).unitize,
          s.light, -b - Real.sqrt d, s.material⟩) ∧
      (-b - Real.sqrt d < EPSILON → EPSILON ≤ -b + Real.sqrt d →
        s.hit origin ray I = some ⟨vadd origin (smul ray (-b + Real.sqrt d)),
          (vsub (vadd origin (smul ray (-b + Real.sqrt d))) s.center).unitize,
          s.light, -b + Real.sqrt d, s.material⟩) ∧
      (-b + Real.sqrt d < EPSILON → s.hit origin ray I = none)) := by
  have hup : (-b - Real.sqrt d) + Real.sqrt d * 2 = -b + Real.sqrt d := by ring
  constructor
  · intro hneg
    simp only [Sphere.hit, ← hb, ← hd, if_pos hneg]
  · intro hpos
    refine ⟨fun h1 => ?_, fun h1 h2 => ?_, fun h2 => ?_⟩
    · simp only [Sphere.hit, ← hb, ← hd, if_neg (not_lt.2 hpos), if_neg (not_lt.2 h1)]
    · simp only [Sphere.hit, ← hb, ← hd, if_neg (not_lt.2 hpos), if_pos h1, hup,
        if_neg (not_lt.2 h2)]
    · by_cases h1 : -b - Real.sqrt d < EPSILON
      · simp only [Sphere.hit, ← hb, ← hd, if_neg (not_lt.2 hpos), if_pos h1, hup, if_pos h2]
      · exfalso
        have := Real.sqrt_nonneg d
        linarith [not_lt.1 h1]

/-- Claim C5: `Sphere::hit` implements the quadratic root rule: with
    `b = ray · (origin − center)` and `d = b² − |origin − center|² + radius²`,
    it returns no hit (an absent record, not an error) when `d < 0`; otherwise it
    chooses the smaller root `−b − √d` when that is `≥ EPSILON`, else the larger
    root `−b + √d` when that is `≥ EPSILON`, and returns no hit when neither
    root is `≥ EPSILON`. -/
theorem sphere_hit_root_rule (s : Sphere) (origin ray : Vector) (I : Interval) (b d : ℝ)
    (hb : b = dot ray (vsub origin s.center))
    (hd : d = b * b - normSq (vsub origin s.center) + s.radius * s.radius) :
    (d < 0 → s.hit origin ray I = none) ∧
    (0 ≤ d →
      (EPSILON ≤ -b - Real.sqrt d →
        ∃ rec, s.hit origin ray I = some rec ∧ rec.dist = -b - Real.sqrt d) ∧
      (-b - Real.sqrt d < EPSILON → EPSILON ≤ -b + Real.sqrt d →
        ∃ rec, s.hit origin ray I = some rec ∧ rec.dist = -b + Real.sqrt d) ∧
      (-b + Real.sqrt d < EPSILON → s.hit origin ray I = none)) := by
  obtain ⟨hA, hB⟩ := Sphere.hit_cases s origin ray I b d hb hd
  exact ⟨hA, fun hpos =>
    ⟨fun h1 => ⟨_, (hB hpos).1 h1, rfl⟩,
     fun h1 h2 => ⟨_, (hB hpos).2.1 h1 h2, rfl⟩,
     (hB hpos).2.2⟩⟩

/-- Witness for `sphere_hit_root_rule`: the unit sphere at `(0,0,-5)`, ray from
    the origin towards `(0,0,-1)`, which hits at `t = -(-5) - √1 = 4`. -/
theorem sphere_hit_root_rule_witness :
    ∃ rec, Sphere.hit ⟨⟨0, 0, -5⟩, 1, none, none⟩ ⟨0, 0, 0⟩ ⟨0, 0, -1⟩
        ⟨((1 : ℝ) : EReal), ((2 : ℝ) : EReal)⟩ = some rec ∧
      rec.dist = -(-5 : ℝ) - Real.sqrt 1 :=
  ((sphere_hit_root_rule ⟨⟨0, 0, -5⟩, 1, none, none⟩ ⟨0, 0, 0⟩ ⟨0, 0, -1⟩
      ⟨((1 : ℝ) : EReal), ((2 : ℝ) : EReal)⟩ (-5) 1
      (by norm_num [dot, vsub]) (by norm_num [normSq, vsub])).2 (by norm_num)).1
    (by rw [Real.sqrt_one]; norm_num [EPSILON])

/-- Claim C1 (refuted): `Sphere::hit` never reads its `interval` argument, so a
    returned record's `t` need not lie inside the caller's valid-t interval: the
    unit sphere at `(0,0,-5)` queried from the origin towards `(0,0,-1)` with
    interval `[1,2]` yields a record with `t = 4`, which the interval does not
    contain. -/
theorem sphere_hit_ignores_interval :
    Sphere.hit ⟨⟨0, 0, -5⟩, 1, none, none⟩ ⟨0, 0, 0⟩ ⟨0, 0, -1⟩
        ⟨((1 : ℝ) : EReal), ((2 : ℝ) : EReal)⟩ =
      some ⟨⟨0, 0, -4⟩, ⟨0, 0, 1⟩, none, 4, none⟩ ∧
    ¬Interval.contain ⟨((1 : ℝ) : EReal), ((2 : ℝ) : EReal)⟩ 4 := by
  constructor
  · have h := ((Sphere.hit_cases ⟨⟨0, 0, -5⟩, 1, none, none⟩ ⟨0, 0, 0⟩ ⟨0, 0, -1⟩
        ⟨((1 : ℝ) : EReal), ((2 : ℝ) : EReal)⟩ (-5) 1
        (by norm_num [dot, vsub]) (by norm_num [normSq, vsub])).2 (by norm_num)).1
      (by rw [Real.sqrt_one]; norm_num [EPSILON])
    rw [h, Real.sqrt_one]
    norm_num [vadd, smul, vsub, Vector.unitize, vdiv, norm, normSq,
      HitRecord.mk.injEq, Vector.mk.injEq, Real.sqrt_one]
  · rintro ⟨-, h2⟩
    rw [EReal.coe_le_coe_iff] at h2
    norm_num at h2

/-- Modelled from the spec: the slab test the spec describes for `Aabb::hit`,
    where for a negative direction component the parametric entry and exit
    values are swapped so that entry ≤ exit (each per-axis interval is
    `⟨min(t0,t1), max(t0,t1)⟩`); otherwise identical to the code's successive
    intersection. -/
def Aabb.hitSpec (box : Aabb) (origin ray : Vector) (interval : Interval) : Prop :=
  let tx0 := (box.x.min - (origin.x : EReal)) / (ray.x : EReal)
  let tx1 := (box.x.max - (origin.x : EReal)) / (ray.x : EReal)
  let ty0 := (box.y.min - (origin.y : EReal)) / (ray.y : EReal)
  let ty1 := (box.y.max - (origin.y : EReal)) / (ray.y : EReal)
  let tz0 := (box.z.min - (origin.z : EReal)) / (ray.z : EReal)
  let tz1 := (box.z.max - (origin.z : EReal)) / (ray.z : EReal)
  let i1 := interval.intersect ⟨Min.min tx0 tx1, Max.max tx0 tx1⟩
  let i2 := i1.intersect ⟨Min.min ty0 ty1, Max.max ty0 ty1⟩
  let i3 := i2.intersect ⟨Min.min tz0 tz1, Max.max tz0 tz1⟩
  ¬(i1.isEmpty ∨ i2.isEmpty ∨ i3.isEmpty)

/-- Claim C3 (refuted): `Aabb::hit` never swaps the per-axis entry/exit values,
    so it is not equivalent to the spec's slab test: for the box
    `[-2,-1]×[-8,8]×[-8,8]`, origin `(0,0,0)`, direction `(-1,1,1)` and interval
    `[0,10]`, the code returns `false` (its x-axis interval is the empty
    `⟨2,1⟩`) while the spec's swapped test returns `true` (the ray crosses the
    box for `t ∈ [1,2]`). -/
theorem aabb_hit_missing_swap :
    ¬Aabb.hit
        ⟨⟨((-2 : ℝ) : EReal), ((-1 : ℝ) : EReal)⟩, ⟨((-8 : ℝ) : EReal), ((8 : ℝ) : EReal)⟩,
          ⟨((-8 : ℝ) : EReal), ((8 : ℝ) : EReal)⟩⟩
        ⟨0, 0, 0⟩ ⟨-1, 1, 1⟩ ⟨((0 : ℝ) : EReal), ((10 : ℝ) : EReal)⟩ ∧
    Aabb.hitSpec
        ⟨⟨((-2 : ℝ) : EReal), ((-1 : ℝ) : EReal)⟩, ⟨((-8 : ℝ) : EReal), ((8 : ℝ) : EReal)⟩,
          ⟨((-8 : ℝ) : EReal), ((8 : ℝ) : EReal)⟩⟩
        ⟨0, 0, 0⟩ ⟨-1, 1, 1⟩ ⟨((0 : ℝ) : EReal), ((10 : ℝ) : EReal)⟩ := by
  constructor
  · simp only [Aabb.hit, Interval.intersect, Interval.isEmpty, ← EReal.coe_sub,
      ← EReal.coe_div, ← ecoe_max, ← ecoe_min, EReal.coe_lt_coe_iff, gt_iff_lt]
    norm_num [min_def, max_def]
  · simp only [Aabb.hitSpec, Interval.intersect, Interval.isEmpty, ← EReal.coe_sub,
      ← EReal.coe_div, ← ecoe_max, ← ecoe_min, EReal.coe_lt_coe_iff, gt_iff_lt]
    norm_num [min_def, max_def]

theorem mergeHits_left (x : Option HitRecord) (a : HitRecord) :
    ∃ rec, mergeHits (some a) x = some rec ∧ rec.dist ≤ a.dist := by
  cases x with
  | none => exact ⟨a, rfl, le_refl _⟩
  | some b =>
      by_cases h : a.dist ≤ b.dist
      · exact ⟨a, by simp [mergeHits, h], le_refl _⟩
      · exact ⟨b, by simp [mergeHits, h], (not_le.1 h).le⟩

theorem mergeHits_right (x : Option HitRecord) (b : HitRecord) :
    ∃ rec, mergeHits x (some b) = some rec ∧ rec.dist ≤ b.dist := by
  cases x with
  | none => exact ⟨b, rfl, le_refl _⟩
  | some a =>
      by_cases h : a.dist ≤ b.dist
      · exact ⟨a, by simp [mergeHits, h], h⟩
      · exact ⟨b, by simp [mergeHits, h], le_refl _⟩

/-- If the cached boxes are conservative for the query and some primitive of the
    hierarchy hits, the hierarchy query returns a record at least as near. -/
theorem Bvh.hit_min (t : Bvh) (origin ray : Vector) (I : Interval) :
    t.Conservative origin ray I →
    ∀ f ∈ t.prims, ∀ r', f origin ray I = some r' →
      ∃ rec, t.hit origin ray I = some rec ∧ rec.dist ≤ r'.dist := by
  induction t with
  | nil => intro _ f hf; simp [Bvh.prims] at hf
  | prim h =>
      intro _ f hf r' hr
      simp only [Bvh.prims, List.mem_singleton] at hf
      subst hf
      exact ⟨r', by simp [Bvh.hit, hr], le_refl _⟩
  | node l r box ihl ihr =>
      intro hc f hf r' hr
      simp only [Bvh.Conservative] at hc
      obtain ⟨hbox, hcl, hcr⟩ := hc
      by_cases hb : box.hit origin ray I
      · simp only [Bvh.hit, if_pos hb]
        simp only [Bvh.prims, List.mem_append] at hf
        cases hf with
        | inl hfl =>
            obtain ⟨recl, hl, hle⟩ := ihl hcl f hfl r' hr
            rw [hl]
            obtain ⟨rec, hm, hmle⟩ := mergeHits_left (Bvh.hit r origin ray I) recl
            exact ⟨rec, hm, le_trans hmle hle⟩
        | inr hfr =>
            obtain ⟨recr, hrr, hle⟩ := ihr hcr f hfr r' hr
            rw [hrr]
            obtain ⟨rec, hm, hmle⟩ := mergeHits_right (Bvh.hit l origin ray I) recr
            exact ⟨rec, hm, le_trans hmle hle⟩
      · exact absurd hr (by rw [hbox hb f hf]; exact fun h => Option.noConfusion h)

/-- Claim C4: a hierarchy query prunes by the cached box (a node whose box is
    not hit returns no hit), and, when the cached boxes are conservative for the
    query, it returns the nearest hit: every primitive in the hierarchy either
    reports no hit in the interval or reports a `t` at least the returned
    record's `dist`. -/
theorem bvh_hit_nearest (t : Bvh) (origin ray : Vector) (I : Interval) :
    (∀ l r box, t = Bvh.node l r box → ¬box.hit origin ray I → t.hit origin ray I = none) ∧
    (t.Conservative origin ray I →
      ∀ rec, t.hit origin ray I = some rec →
        ∀ f ∈ t.prims, f origin ray I = none ∨
          ∃ r', f origin ray I = some r' ∧ rec.dist ≤ r'.dist) := by
  constructor
  · rintro l r box rfl hb
    simp [Bvh.hit, if_neg hb]
  · intro hc rec hrec f hf
    cases hfo : f origin ray I with
    | none => exact Or.inl rfl
    | some r' =>
        obtain ⟨rec2, h2, hle⟩ := Bvh.hit_min t origin ray I hc f hf r' hfo
        rw [hrec] at h2
        cases Option.some.inj h2
        exact Or.inr ⟨r', rfl, hle⟩

/-- Fixture for the `bvh_hit_nearest` witness: a primitive always reporting a
    hit at distance 4. -/
def fixA : HitFun := fun _ _ _ => some ⟨⟨0, 0, 0⟩, ⟨0, 0, 1⟩, none, 4, none⟩

/-- Fixture: a primitive always reporting a hit at distance 9. -/
def fixB : HitFun := fun _ _ _ => some ⟨⟨0, 0, 0⟩, ⟨0, 0, 1⟩, none, 9, none⟩

/-- Fixture: a root box hit by the ray of the witness query. -/
def fixBox : Aabb :=
  ⟨⟨((4 : ℝ) : EReal), ((6 : ℝ) : EReal)⟩, ⟨((-9 : ℝ) : EReal), ((9 : ℝ) : EReal)⟩,
    ⟨((-9 : ℝ) : EReal), ((9 : ℝ) : EReal)⟩⟩

/-- Fixture: a two-primitive hierarchy. -/
def fixTree : Bvh := .node (.prim fixA) (.prim fixB) fixBox

theorem fixBox_hit :
    fixBox.hit ⟨0, 0, 0⟩ ⟨1, 1, 1⟩ ⟨((0 : ℝ) : EReal), ((100 : ℝ) : EReal)⟩ := by
  simp only [fixBox, Aabb.hit, Interval.intersect, Interval.isEmpty, ← EReal.coe_sub,
    ← EReal.coe_div, ← ecoe_max, ← ecoe_min, EReal.coe_lt_coe_iff, gt_iff_lt]
  norm_num [min_def, max_def]

/-- Witness for `bvh_hit_nearest`: in the concrete two-primitive hierarchy
    `fixTree` the query returns the record of distance 4, and the farther
    primitive `fixB` indeed reports a hit no nearer than it. -/
theorem bvh_hit_nearest_witness :
    fixB ⟨0, 0, 0⟩ ⟨1, 1, 1⟩ ⟨((0 : ℝ) : EReal), ((100 : ℝ) : EReal)⟩ = none ∨
    ∃ r', fixB ⟨0, 0, 0⟩ ⟨1, 1, 1⟩ ⟨((0 : ℝ) : EReal), ((100 : ℝ) : EReal)⟩ = some r' ∧
      (4 : ℝ) ≤ r'.dist := by
  have hEval : fixTree.hit ⟨0, 0, 0⟩ ⟨1, 1, 1⟩ ⟨((0 : ℝ) : EReal), ((100 : ℝ) : EReal)⟩ =
      some ⟨⟨0, 0, 0⟩, ⟨0, 0, 1⟩, none, 4, none⟩ := by
    simp only [fixTree, Bvh.hit, if_pos fixBox_hit, fixA, fixB, mergeHits]
    norm_num
  have hC : fixTree.Conservative ⟨0, 0, 0⟩ ⟨1, 1, 1⟩
      ⟨((0 : ℝ) : EReal), ((100 : ℝ) : EReal)⟩ := by
    refine ⟨fun hb => absurd fixBox_hit hb, trivial, trivial⟩
  have h := (bvh_hit_nearest fixTree ⟨0, 0, 0⟩ ⟨1, 1, 1⟩
      ⟨((0 : ℝ) : EReal), ((100 : ℝ) : EReal)⟩).2 hC
      ⟨⟨0, 0, 0⟩, ⟨0, 0, 1⟩, none, 4, none⟩ hEval fixB
      (by simp [fixTree, Bvh.prims])
  simpa using h

end c3d
